import Mathlib

/-!
Verification of the new-milli resilience middleware and application
lifecycle orchestrator.

Shallow embedding conventions:
* Time is measured in nanoseconds as a `Nat`; Go's zero `time.Time` is
  modelled by `none : Option Nat` (it precedes every program clock reading).
* Go errors are modelled by the inductive `GoError`; `none : Option GoError`
  is Go's `nil` error.
* `interface{}` requests and replies are modelled by `Nat` / `Option Nat`.
* Closure-captured mutable state (the token bucket of
  `middleware/ratelimit/ratelimit.go`, the breaker registry of the
  circuitbreaker middleware) is threaded explicitly through a `World`
  record, so middleware-wrapped handlers take and return a `World`.
-/

/-- Errors that appear in the verified fragment. `openState` and
`tooManyRequests` are gobreaker's sentinel errors, `circuitOpen` is
`circuitbreaker.ErrCircuitOpen`, `limitExceed` is `ratelimit.ErrLimitExceed`,
`canceled` is `context.Canceled`, `panicErr v` is the recovery middleware's
default `fmt.Errorf("panic: %v", v)`, and `genericErr n` stands for an
arbitrary user error value. -/
inductive GoError where
  | openState
  | tooManyRequests
  | circuitOpen
  | limitExceed
  | canceled
  | panicErr (v : Nat)
  | genericErr (n : Nat)
  deriving DecidableEq, Repr

/-- Invocation context seen by a middleware-wrapped handler. `now` is the
wall-clock reading (ns) when the call enters the wrapper; `cancelAt` is the
instant at which the caller's `context.Context` is cancelled, if ever;
`serverOp` models `transport.FromServerContext(ctx)`: `some op` when a
server `Transporter` with `Operation() = op` is attached. -/
structure Ctx where
  now : Nat
  cancelAt : Option Nat
  serverOp : Option String

/-- Request/failure counters of a gobreaker `CircuitBreaker`
(`gobreaker.Counts`; all fields are uint32 in Go, modelled as `Nat`). -/
structure Counts where
  requests : Nat
  totalSuccesses : Nat
  totalFailures : Nat
  consecutiveSuccesses : Nat
  consecutiveFailures : Nat
  deriving DecidableEq, Repr

/-- Zeroed counters, as produced by `Counts.clear`. -/
def Counts.clear : Counts := ⟨0, 0, 0, 0, 0⟩

/-- Model of `gobreaker.Counts.onRequest`. -/
def Counts.onRequest (c : Counts) : Counts :=
  { c with requests := c.requests + 1 }

/-- Model of `gobreaker.Counts.onSuccess`: bump total and consecutive
successes, reset the consecutive-failure streak. -/
def Counts.onSuccess (c : Counts) : Counts :=
  { c with totalSuccesses := c.totalSuccesses + 1,
           consecutiveSuccesses := c.consecutiveSuccesses + 1,
           consecutiveFailures := 0 }

/-- Model of `gobreaker.Counts.onFailure`: bump total and consecutive
failures, reset the consecutive-success streak. -/
def Counts.onFailure (c : Counts) : Counts :=
  { c with totalFailures := c.totalFailures + 1,
           consecutiveFailures := c.consecutiveFailures + 1,
           consecutiveSuccesses := 0 }

/-- The three gobreaker states (`gobreaker.StateClosed` etc.). -/
inductive CBState where
  | stateClosed
  | stateHalfOpen
  | stateOpen
  deriving DecidableEq, Repr

/-- Test `e.Before(now)` where `none` models Go's zero `time.Time`, which
precedes every clock reading taken during the program's run. -/
def beforeTime : Option Nat → Nat → Bool
  | none, _ => true
  | some e, now => decide (e < now)

/-- A sony/gobreaker `CircuitBreaker` as configured and driven by the
circuitbreaker middleware (unnamed part_006). The settings fields
(`maxRequests`, `interval`, `timeout`, `readyToTrip`, `isSuccessful`) are
those of `gobreaker.Settings` after `NewCircuitBreaker`'s defaulting;
`onStateChange` only logs and is omitted. `expiry = none` models the zero
time. -/
structure Breaker where
  maxRequests : Nat
  interval : Nat
  timeout : Nat
  readyToTrip : Counts → Bool
  isSuccessful : Option GoError → Bool
  state : CBState
  generation : Nat
  counts : Counts
  expiry : Option Nat

/-- Model of `CircuitBreaker.toNewGeneration`: bump the generation, clear
the counts, and set the expiry for the current state (closed: interval
window end, or zero when `interval = 0`; open: `now + timeout`; half-open:
zero). -/
def Breaker.toNewGeneration (cb : Breaker) (now : Nat) : Breaker :=
  let cb := { cb with generation := cb.generation + 1, counts := Counts.clear }
  match cb.state with
  | .stateClosed =>
      { cb with expiry := if cb.interval = 0 then none else some (now + cb.interval) }
  | .stateOpen => { cb with expiry := some (now + cb.timeout) }
  | .stateHalfOpen => { cb with expiry := none }

/-- Model of `CircuitBreaker.setState`: a no-op when the state is unchanged,
otherwise switch state and start a new generation. (`onStateChange` only
logs.) -/
def Breaker.setState (cb : Breaker) (s : CBState) (now : Nat) : Breaker :=
  if cb.state = s then cb
  else Breaker.toNewGeneration { cb with state := s } now

/-- Model of `CircuitBreaker.currentState`: in Closed, roll the interval
window (new generation) once the non-zero expiry has passed; in Open, move
to HalfOpen once the expiry has passed. Returns the updated breaker
together with the observed state and generation. -/
def Breaker.currentState (cb : Breaker) (now : Nat) : Breaker × CBState × Nat :=
  let cb :=
    match cb.state with
    | .stateClosed =>
        if cb.expiry ≠ none ∧ beforeTime cb.expiry now then cb.toNewGeneration now
        else cb
    | .stateOpen =>
        if beforeTime cb.expiry now then cb.setState .stateHalfOpen now
        else cb
    | .stateHalfOpen => cb
  (cb, cb.state, cb.generation)

/-- Model of `CircuitBreaker.beforeRequest`: reject with `ErrOpenState`
while Open, reject with `ErrTooManyRequests` when HalfOpen already carries
`maxRequests` in-flight requests, otherwise count the request and admit. -/
def Breaker.beforeRequest (cb : Breaker) (now : Nat) : Breaker × Nat × Option GoError :=
  let (cb, st, gen) := cb.currentState now
  if st = .stateOpen then (cb, gen, some .openState)
  else if st = .stateHalfOpen ∧ cb.maxRequests ≤ cb.counts.requests then
    (cb, gen, some .tooManyRequests)
  else ({ cb with counts := cb.counts.onRequest }, gen, none)

/-- Success bookkeeping (`CircuitBreaker.onSuccess`): in HalfOpen,
`maxRequests` consecutive successes close the breaker. -/
def Breaker.onSuccess (cb : Breaker) (st : CBState) (now : Nat) : Breaker :=
  match st with
  | .stateClosed => { cb with counts := cb.counts.onSuccess }
  | .stateHalfOpen =>
      let cb := { cb with counts := cb.counts.onSuccess }
      if cb.maxRequests ≤ cb.counts.consecutiveSuccesses then
        cb.setState .stateClosed now
      else cb
  | .stateOpen => cb

/-- Failure bookkeeping (`CircuitBreaker.onFailure`): in Closed, count the
failure and trip to Open when `readyToTrip` fires; in HalfOpen, any failure
reopens the breaker. -/
def Breaker.onFailure (cb : Breaker) (st : CBState) (now : Nat) : Breaker :=
  match st with
  | .stateClosed =>
      let cb := { cb with counts := cb.counts.onFailure }
      if cb.readyToTrip cb.counts then cb.setState .stateOpen now else cb
  | .stateHalfOpen => cb.setState .stateOpen now
  | .stateOpen => cb

/-- Model of `CircuitBreaker.afterRequest`: bookkeeping tagged with a stale
generation is discarded. -/
def Breaker.afterRequest (cb : Breaker) (before : Nat) (success : Bool) (now : Nat) : Breaker :=
  let (cb, st, gen) := cb.currentState now
  if gen ≠ before then cb
  else if success then cb.onSuccess st now
  else cb.onFailure st now

/-- Model of `CircuitBreaker.Execute` on its non-panicking path. The wrapped
request is a function `req` so that a rejected call provably never invokes
it; `σ` threads whatever state the request body mutates through its closure
(instantiated with `World` by the middleware and `Unit` for a bare call).
`t1`/`t2` are the two `time.Now()` readings gobreaker takes in
`beforeRequest` and `afterRequest`. -/
def Breaker.execute {σ : Type} (cb : Breaker) (t1 t2 : Nat) (s : σ)
    (req : σ → σ × (Option Nat × Option GoError)) :
    Breaker × σ × (Option Nat × Option GoError) :=
  match cb.beforeRequest t1 with
  | (cb, _, some e) => (cb, s, (none, some e))
  | (cb, gen, none) =>
      let (s, result, err) := req s
      (cb.afterRequest gen (cb.isSuccessful err) t2, s, (result, err))

/-- Model of `gobreaker.NewCircuitBreaker`'s defaulting: `MaxRequests = 0`
becomes 1, `Interval ≤ 0` becomes 0, `Timeout ≤ 0` becomes 60s; the breaker
starts Closed with cleared counts and, via `toNewGeneration`, generation 1
and a zero expiry when the interval is zero (the middleware always passes a
positive interval, giving expiry `now + interval`). -/
def newCircuitBreaker (maxRequests interval timeout : Nat)
    (readyToTrip : Counts → Bool) (isSuccessful : Option GoError → Bool)
    (now : Nat) : Breaker :=
  Breaker.toNewGeneration
    { maxRequests := if maxRequests = 0 then 1 else maxRequests
      interval := interval
      timeout := if timeout = 0 then 60000000000 else timeout
      readyToTrip := readyToTrip
      isSuccessful := isSuccessful
      state := .stateClosed
      generation := 0
      counts := Counts.clear
      expiry := none } now

/-- Static configuration of a juju/ratelimit `Bucket` as built by
`ratelimit.NewBucketWithRate`: `capacity` tokens of burst, one `quantum` of
tokens added every `fillInterval` nanoseconds. The bucket's `startTime` is
taken as instant 0. -/
structure Bucket where
  capacity : Int
  quantum : Int
  fillInterval : Nat

/-- Mutable part of a juju/ratelimit `Bucket`. `availableTokens` may go
negative after a blocking `Take`/`Wait` reservation. -/
structure BucketState where
  availableTokens : Int
  latestTick : Int
  deriving DecidableEq, Repr

/-- Model of `Bucket.currentTick`: the number of whole fill intervals since
the bucket's start time. -/
def Bucket.currentTick (b : Bucket) (now : Nat) : Int :=
  (now / b.fillInterval : Nat)

/-- Model of `Bucket.adjustavailableTokens`: lazily credit `quantum` tokens
per elapsed tick, capped at `capacity`; an already-full (or over-full)
bucket only records the tick. -/
def Bucket.adjust (b : Bucket) (s : BucketState) (tick : Int) : BucketState :=
  if b.capacity ≤ s.availableTokens then { s with latestTick := tick }
  else
    let avail := s.availableTokens + (tick - s.latestTick) * b.quantum
    { availableTokens := if b.capacity < avail then b.capacity else avail
      latestTick := tick }

/-- Model of `Bucket.TakeAvailable`: take up to `count` immediately
available tokens, returning how many were actually removed (possibly fewer
than requested, and 0 when none are available or `count ≤ 0`). -/
def Bucket.takeAvailable (b : Bucket) (s : BucketState) (now : Nat) (count : Int) :
    BucketState × Int :=
  if count ≤ 0 then (s, 0)
  else
    let s := b.adjust s (b.currentTick now)
    if s.availableTokens ≤ 0 then (s, 0)
    else
      let take := if s.availableTokens < count then s.availableTokens else count
      ({ s with availableTokens := s.availableTokens - take }, take)

/-- Model of `Bucket.take` with unbounded `maxWait`, as used by
`Bucket.Wait`: reserve `count` tokens (the balance may go negative) and
return the time to sleep until the reservation is covered. -/
def Bucket.takeWait (b : Bucket) (s : BucketState) (now : Nat) (count : Int) :
    BucketState × Nat :=
  if count ≤ 0 then (s, 0)
  else
    let tick := b.currentTick now
    let s := b.adjust s tick
    let avail := s.availableTokens - count
    if 0 ≤ avail then ({ s with availableTokens := avail }, 0)
    else
      let endTick := tick + (-avail + b.quantum - 1) / b.quantum
      let endTime := endTick * (b.fillInterval : Int)
      ({ s with availableTokens := avail }, (endTime - (now : Int)).toNat)

/-- Model of `ratelimit.NewBucketWithRate` for a positive integer rate
dividing 10^9 (the only rates this repository uses: the middleware default
100/s and the specification scenario 10/s). The library searches quanta
1, 2, ...; at quantum 1 the candidate `fillInterval = 10^9/rate` ns already
reproduces the requested rate exactly, so the search stops there. The fresh
bucket starts full (`availableTokens = capacity`) at tick 0. -/
def newBucketWithRate (rate : Nat) (capacity : Int) : Bucket :=
  { capacity := capacity, quantum := 1, fillInterval := 1000000000 / rate }

/-- Initial state of a freshly constructed bucket: full, at tick 0. -/
def initialBucketState (b : Bucket) : BucketState :=
  { availableTokens := b.capacity, latestTick := 0 }

/-- Model of the helper `ratelimit.Allow` (ratelimit.go line 188): admit iff
`TakeAvailable(n)` removed at least one token. -/
def rlAllow (b : Bucket) (s : BucketState) (now : Nat) (n : Int) : BucketState × Bool :=
  let (s, taken) := b.takeAvailable s now n
  (s, 0 < taken)

/-- Fold `Allow(1)` calls at the given sequence of instants, collecting each
admission verdict. -/
def allowRun (b : Bucket) (s : BucketState) : List Nat → List Bool × BucketState
  | [] => ([], s)
  | t :: ts =>
      let (s, ok) := rlAllow b s t 1
      let (rest, s) := allowRun b s ts
      (ok :: rest, s)

/-- Outcome of the helper `ratelimit.Wait` (ratelimit.go lines 177-185). -/
inductive WaitOutcome where
  | ctxError
  | completed (finish : Nat)
  deriving DecidableEq, Repr

/-- Whether the caller's token (cancelled at `cancelAt`, if ever) is already
cancelled at instant `t`. -/
def cancelledBy (cancelAt : Option Nat) (t : Nat) : Bool :=
  match cancelAt with
  | none => false
  | some c => decide (c ≤ t)

/-- Model of the helper `ratelimit.Wait`: the `select` with a `default`
branch consults the context exactly once, on entry; when the token is not
already cancelled the call falls through to `limiter.Wait(n)`, which
reserves the tokens and sleeps out the bucket's computed wait time with no
further cancellation check, returning nil at instant `entry + wait`. -/
def ratelimitWait (b : Bucket) (s : BucketState) (cancelAt : Option Nat)
    (entry : Nat) (n : Int) : BucketState × WaitOutcome :=
  if cancelledBy cancelAt entry then (s, .ctxError)
  else
    let (s, w) := b.takeWait s entry n
    (s, .completed (entry + w))

/-- Closure state mutated by the resilience middleware: the rate-limit
middleware's token bucket and the circuitbreaker middleware's
name-to-breaker registry (an association list standing for the Go map;
lookups take the most recent binding for a key). -/
structure World where
  bucket : BucketState
  registry : List (String × Breaker)

/-- A middleware-wrapped handler: Go's
`func(ctx context.Context, req interface{}) (interface{}, error)` with the
closure state threaded explicitly. -/
def SHandler : Type :=
  World → Ctx → Nat → World × (Option Nat × Option GoError)

/-- Look up a breaker in the registry (`registry[name]`). -/
def regFind (reg : List (String × Breaker)) (name : String) : Option Breaker :=
  match reg with
  | [] => none
  | (k, cb) :: rest => if k = name then some cb else regFind rest name

/-- Store a breaker under a name (`registry[name] = cb`): the new binding
shadows any previous one. -/
def regStore (reg : List (String × Breaker)) (name : String) (cb : Breaker) :
    List (String × Breaker) :=
  (name, cb) :: reg

/-- Configuration of the ratelimit middleware (ratelimit.go `options`).
`rate` is restricted to the positive integer token rates this repository
exercises (Go stores a float64). -/
structure RLOptions where
  disabled : Bool
  capacity : Int
  rate : Nat
  waitIfFull : Bool

/-- Defaults of `ratelimit.Server`: capacity 100, rate 100 tokens/sec,
non-blocking. -/
def rlDefaults : RLOptions :=
  { disabled := false, capacity := 100, rate := 100, waitIfFull := false }

/-- Model of `ratelimit.WithDisabled`. -/
def rlWithDisabled (d : Bool) (o : RLOptions) : RLOptions := { o with disabled := d }

/-- Model of `ratelimit.WithCapacity`. -/
def rlWithCapacity (c : Int) (o : RLOptions) : RLOptions := { o with capacity := c }

/-- Model of `ratelimit.WithRate`. -/
def rlWithRate (r : Nat) (o : RLOptions) : RLOptions := { o with rate := r }

/-- Model of `ratelimit.WithWaitIfFull`. -/
def rlWithWaitIfFull (w : Bool) (o : RLOptions) : RLOptions := { o with waitIfFull := w }

/-- Apply functional options to the defaults, as the `for _, opt := range
opts` loop does. -/
def applyRLOptions (opts : List (RLOptions → RLOptions)) : RLOptions :=
  opts.foldl (fun o f => f o) rlDefaults

/-- Model of `ratelimit.Server` on an explicit configuration: when disabled
it is the identity middleware; otherwise it owns a fresh bucket and, per
call, either waits for a token unconditionally (blocking mode, no
cancellation check — the handler then runs at the post-sleep instant) or
tries `TakeAvailable(1)` and rejects with `ErrLimitExceed` without invoking
the handler when no token was taken. -/
def ratelimitServerO (cfg : RLOptions) : SHandler → SHandler :=
  if cfg.disabled then fun h => h
  else
    let b := newBucketWithRate cfg.rate cfg.capacity
    fun h w ctx req =>
      if cfg.waitIfFull then
        let (bs, wait) := b.takeWait w.bucket ctx.now 1
        h { w with bucket := bs } { ctx with now := ctx.now + wait } req
      else
        let (bs, taken) := b.takeAvailable w.bucket ctx.now 1
        if 0 < taken then h { w with bucket := bs } ctx req
        else ({ w with bucket := bs }, (none, some .limitExceed))

/-- Model of `ratelimit.Server(opts...)`. -/
def ratelimitServer (opts : List (RLOptions → RLOptions)) : SHandler → SHandler :=
  ratelimitServerO (applyRLOptions opts)

/-- Configuration of the circuitbreaker middleware (part_006 `options`).
`name` and `onStateChange` are log-only and omitted. -/
structure CBOptions where
  disabled : Bool
  maxRequests : Nat
  interval : Nat
  timeout : Nat
  readyToTrip : Counts → Bool
  isSuccessful : Option GoError → Bool
  fallbackHandler : Ctx → Nat → Option Nat × Option GoError
  circuitBreakerName : Ctx → String

/-- Default trip predicate of the circuitbreaker middleware:
`counts.Requests >= 10 && failureRatio >= 0.5`. For uint32-sized counts the
float64 comparison `TotalFailures/Requests ≥ 0.5` is exactly
`Requests ≤ 2·TotalFailures` (the quotient is at least 2^-33 away from 0.5
whenever the exact ratio is below it, far beyond the 2^-53 rounding error),
and with `Requests ≥ 10` the quotient is well defined. -/
def defaultReadyToTrip (c : Counts) : Bool :=
  decide (10 ≤ c.requests) && decide (c.requests ≤ 2 * c.totalFailures)

/-- Defaults of the circuitbreaker `Server` middleware: maxRequests 100,
interval and timeout one minute, default trip predicate, success =
nil error, fallback returning `ErrCircuitOpen`, and breaker name
`"server_" + Operation()` (plain `"server"` without a transporter). -/
def cbDefaults : CBOptions :=
  { disabled := false
    maxRequests := 100
    interval := 60000000000
    timeout := 60000000000
    readyToTrip := defaultReadyToTrip
    isSuccessful := fun err => err = none
    fallbackHandler := fun _ _ => (none, some .circuitOpen)
    circuitBreakerName := fun ctx =>
      match ctx.serverOp with
      | some op => "server_" ++ op
      | none => "server" }

/-- Model of circuitbreaker `WithDisabled`. -/
def cbWithDisabled (d : Bool) (o : CBOptions) : CBOptions := { o with disabled := d }

/-- Model of circuitbreaker `WithMaxRequests`. -/
def cbWithMaxRequests (m : Nat) (o : CBOptions) : CBOptions := { o with maxRequests := m }

/-- Model of circuitbreaker `WithInterval`. -/
def cbWithInterval (i : Nat) (o : CBOptions) : CBOptions := { o with interval := i }

/-- Model of circuitbreaker `WithTimeout`. -/
def cbWithTimeout (t : Nat) (o : CBOptions) : CBOptions := { o with timeout := t }

/-- Model of circuitbreaker `WithReadyToTrip`. -/
def cbWithReadyToTrip (f : Counts → Bool) (o : CBOptions) : CBOptions :=
  { o with readyToTrip := f }

/-- Model of circuitbreaker `WithFallbackHandler`. -/
def cbWithFallbackHandler (f : Ctx → Nat → Option Nat × Option GoError)
    (o : CBOptions) : CBOptions :=
  { o with fallbackHandler := f }

/-- Apply functional options to the circuitbreaker defaults. -/
def applyCBOptions (opts : List (CBOptions → CBOptions)) : CBOptions :=
  opts.foldl (fun o f => f o) cbDefaults

/-- Fetch the breaker for `name`, creating and storing a fresh one from the
middleware's settings on first access (part_006 lines 162-175; the plain
map read/write of the source, here executed atomically as by a single
sequential caller). -/
def getOrCreateBreaker (cfg : CBOptions) (reg : List (String × Breaker))
    (name : String) (now : Nat) : Breaker × List (String × Breaker) :=
  match regFind reg name with
  | some cb => (cb, reg)
  | none =>
      let cb := newCircuitBreaker cfg.maxRequests cfg.interval cfg.timeout
        cfg.readyToTrip cfg.isSuccessful now
      (cb, regStore reg name cb)

/-- Model of the circuitbreaker `Server` middleware on an explicit
configuration: when disabled it is the identity middleware; otherwise each
call fetches (or lazily creates) the breaker named by
`circuitBreakerName(ctx)`, runs the wrapped handler under
`CircuitBreaker.Execute`, writes the mutated breaker back, and replaces a
`gobreaker.ErrOpenState` outcome by the fallback handler's result. Both
gobreaker clock readings of the call are modelled by the call instant
`ctx.now` (calls are modelled as instantaneous). -/
def circuitbreakerServerO (cfg : CBOptions) : SHandler → SHandler :=
  if cfg.disabled then fun h => h
  else fun h w ctx req =>
    let name := cfg.circuitBreakerName ctx
    let (cb, reg) := getOrCreateBreaker cfg w.registry name ctx.now
    let w := { w with registry := reg }
    let (cb, w, result, err) :=
      match cb.execute ctx.now ctx.now w (fun w => h w ctx req) with
      | (cb, w, (result, err)) => (cb, w, result, err)
    let w := { w with registry := regStore w.registry name cb }
    if err = some .openState then (w, cfg.fallbackHandler ctx req)
    else (w, (result, err))

/-- Model of the circuitbreaker `Server(opts...)` middleware. -/
def circuitbreakerServer (opts : List (CBOptions → CBOptions)) : SHandler → SHandler :=
  circuitbreakerServerO (applyCBOptions opts)

/-- Result of invoking a raw handler: either a normal Go return
`(reply, err)` or a runtime panic carrying value `v`. -/
inductive HOutcome where
  | ok (reply : Option Nat) (err : Option GoError)
  | panics (v : Nat)
  deriving DecidableEq, Repr

/-- A handler as seen by the recovery middleware: it may panic. -/
def PHandler : Type := Ctx → Nat → HOutcome

/-- Configuration of the recovery middleware (recovery.go `options`).
`stackSize`, `disableStack` and `disablePrint` only shape the logged stack
trace; the fault-to-error translator `recoveryHandler` determines the
call's result. -/
structure RecOptions where
  disabled : Bool
  stackSize : Nat
  disableStack : Bool
  disablePrint : Bool
  recoveryHandler : Ctx → Nat → GoError

/-- Defaults of `recovery.Server`: a 4 KiB stack budget and a translator
wrapping the panic value as `fmt.Errorf("panic: %v", r)`. -/
def recDefaults : RecOptions :=
  { disabled := false, stackSize := 4096, disableStack := false,
    disablePrint := false, recoveryHandler := fun _ v => .panicErr v }

/-- Model of `recovery.WithDisabled`. -/
def recWithDisabled (d : Bool) (o : RecOptions) : RecOptions := { o with disabled := d }

/-- Model of `recovery.WithStackSize`. -/
def recWithStackSize (n : Nat) (o : RecOptions) : RecOptions := { o with stackSize := n }

/-- Model of `recovery.WithRecoveryHandler`. -/
def recWithRecoveryHandler (f : Ctx → Nat → GoError) (o : RecOptions) : RecOptions :=
  { o with recoveryHandler := f }

/-- Apply functional options to the recovery defaults. -/
def applyRecOptions (opts : List (RecOptions → RecOptions)) : RecOptions :=
  opts.foldl (fun o f => f o) recDefaults

/-- Model of `recovery.Server` on an explicit configuration: when disabled
it is the identity; otherwise a deferred `recover()` turns a panic with
value `r` into the normal return `(nil, recoveryHandler(ctx, r))` (the named
reply result was never assigned, hence nil), while a normal return passes
through unchanged. The wrapper keeps no state between calls. -/
def recoveryServerO (cfg : RecOptions) : PHandler → PHandler :=
  if cfg.disabled then fun h => h
  else fun h ctx req =>
    match h ctx req with
    | .ok reply err => .ok reply err
    | .panics r => .ok none (some (cfg.recoveryHandler ctx r))

/-- Model of `recovery.Server(opts...)`. -/
def recoveryServer (opts : List (RecOptions → RecOptions)) : PHandler → PHandler :=
  recoveryServerO (applyRecOptions opts)

/-- Run lifecycle hooks in order, stopping at the first failure; returns
the first error (if any) and how many hooks were executed. This is the
`for _, fn := range hooks { if err := fn(ctx); err != nil { return err } }`
loop of app.go, with each hook abstracted by the error it returns. -/
def runHooks : List (Option GoError) → Option GoError × Nat
  | [] => (none, 0)
  | none :: rest =>
      let (e, n) := runHooks rest
      (e, n + 1)
  | some e :: _ => (some e, 1)

/-- Observable trace of one `App.Run` invocation (app.go lines 72-122).
`beforeStartRan`/`afterStartRan` count hook executions; `startsLaunched`
counts the per-server `eg.Go(... srv.Start(ctx))` tasks launched. The
concurrently running start/stop tasks and the signal listener are
abstracted by `egWaitResult`, the error `eg.Wait()` eventually returns. -/
structure RunTrace where
  returned : Option GoError
  beforeStartRan : Nat
  startsLaunched : Nat
  afterStartRan : Nat
  deriving DecidableEq, Repr

/-- Model of `App.Run`: run the `beforeStart` hooks strictly in order and
return the first error before any server is touched; otherwise launch the
stop-waiter and start task for every server, run the `afterStart` hooks,
and finally return `eg.Wait()`'s error with `context.Canceled` filtered to
nil (lines 118-121). -/
def appRun (beforeStart afterStart : List (Option GoError)) (numServers : Nat)
    (egWaitResult : Option GoError) : RunTrace :=
  match runHooks beforeStart with
  | (some e, n) => ⟨some e, n, 0, 0⟩
  | (none, n) =>
      match runHooks afterStart with
      | (some e, n2) => ⟨some e, n, numServers, n2⟩
      | (none, n2) =>
          let r := if egWaitResult = some .canceled then none else egWaitResult
          ⟨r, n, numServers, n2⟩

/-- State of the application relevant to `App.Stop`: whether the root
cancellation token has been cancelled. -/
structure StopState where
  cancelled : Bool
  deriving DecidableEq, Repr

/-- Model of `App.Stop` (app.go lines 125-141): run the `beforeStop` hooks
in order (first error returned), cancel the root token (`context.CancelFunc`
is idempotent), then run the `afterStop` hooks in order (first error
returned). The third component counts how many hooks this invocation
executed. -/
def appStop (beforeStop afterStop : List (Option GoError)) (s : StopState) :
    StopState × Option GoError × Nat :=
  match runHooks beforeStop with
  | (some e, n) => (s, some e, n)
  | (none, n) =>
      let s := { s with cancelled := true }
      let (e2, n2) := runHooks afterStop
      (s, e2, n + n2)

/-- A server handed to `New`, abstracted by what its `Init` returns for
given id, name and version options. -/
structure ServerModel where
  initResult : String → String → String → Option GoError

/-- Options of `New` (unnamed part_008 `options`), restricted to the fields
the verified claims touch. `ctx` is an identifier for the caller-supplied
parent context (`context.Background()` by default, identifier 0). -/
structure AppOptions where
  id : String
  name : String
  version : String
  ctx : Nat
  stopTimeout : Nat
  servers : List ServerModel
  beforeStart : List (Option GoError)
  afterStart : List (Option GoError)
  beforeStop : List (Option GoError)
  afterStop : List (Option GoError)

/-- Defaults installed at the top of `New` (app.go lines 31-37):
background context, 10 s stop timeout, no servers, no hooks. -/
def appDefaults : AppOptions :=
  { id := "", name := "", version := "", ctx := 0, stopTimeout := 10000000000,
    servers := [], beforeStart := [], afterStart := [], beforeStop := [],
    afterStop := [] }

/-- The constructed `App`, keeping what the claims observe: identity fields
and the parent of the root cancellation token (`ctx, cancel :=
context.WithCancel(o.ctx)`). -/
structure AppModel where
  id : String
  name : String
  version : String
  rootParent : Nat
  stopTimeout : Nat

/-- Model of the `srv.Init(transport.ID(o.id), transport.Name(o.name),
transport.Version(o.version))` loop of `New`: initialize servers in list
order, stopping at the first error; returns how many `Init`s were invoked
and the first error, if any. Every invocation receives exactly
`(o.id, o.name, o.version)`. -/
def initServers (id name version : String) :
    List ServerModel → Nat × Option GoError
  | [] => (0, none)
  | s :: rest =>
      match s.initResult id name version with
      | some e => (1, some e)
      | none =>
          let (n, r) := initServers id name version rest
          (n + 1, r)

/-- Model of `New` on folded options (app.go lines 30-60): initialize each
server in order with the configured id, name and version; the first `Init`
error aborts with `(nil, err)` before any later server is initialized and
before any `App` is constructed; otherwise derive the root token from the
supplied parent context and return the `App`. -/
def appNewO (o : AppOptions) : Nat × Except GoError AppModel :=
  let (n, r) := initServers o.id o.name o.version o.servers
  match r with
  | some e => (n, .error e)
  | none =>
      (n, .ok { id := o.id, name := o.name, version := o.version,
                rootParent := o.ctx, stopTimeout := o.stopTimeout })

/-- Model of `New(opts...)`. -/
def appNew (opts : List (AppOptions → AppOptions)) : Nat × Except GoError AppModel :=
  appNewO (opts.foldl (fun o f => f o) appDefaults)

/-- Program counter of one request-serving task executing the registry
access of the circuitbreaker middleware (part_006 lines 162-175): the map
read `registry[name]`, then — on a miss — the breaker creation and map
write `registry[name] = cb`. No lock guards these accesses in the source;
each map access is modelled as a single atomic step (a generosity: Go map
operations are not atomic, and concurrent writes are fatal). -/
inductive RegPc where
  | atRead
  | atCreate
  | atDone
  deriving DecidableEq, Repr

/-- Shared state of two request-serving tasks racing to obtain the breaker
for the same operation key: the registry map (keys to breaker identities),
the number of `NewCircuitBreaker` calls performed so far, a fresh-identity
counter, and each task's program counter. -/
structure RegRace where
  table : List (String × Nat)
  createdForKey : Nat
  nextId : Nat
  pc1 : RegPc
  pc2 : RegPc
  deriving DecidableEq, Repr

/-- Both tasks about to perform their first registry read on an empty
registry (the key's first-ever accesses). -/
def regRaceInit : RegRace :=
  { table := [], createdForKey := 0, nextId := 0, pc1 := .atRead, pc2 := .atRead }

/-- Association-list read of the racing tasks' map. -/
def raceFind (t : List (String × Nat)) (k : String) : Option Nat :=
  match t with
  | [] => none
  | (k', v) :: rest => if k' = k then some v else raceFind rest k

/-- Advance one task (the first when `first`, else the second) by one atomic
map operation of the registry access. A read that hits proceeds to done
with the found breaker; a read that misses proceeds to the create-and-write
step; the create step constructs a fresh breaker and stores it. -/
def regRaceStep (key : String) (w : RegRace) (first : Bool) : RegRace :=
  let pc := if first then w.pc1 else w.pc2
  let setPc := fun (w : RegRace) (p : RegPc) =>
    if first then { w with pc1 := p } else { w with pc2 := p }
  match pc with
  | .atRead =>
      match raceFind w.table key with
      | some _ => setPc w .atDone
      | none => setPc w .atCreate
  | .atCreate =>
      setPc { w with table := (key, w.nextId) :: w.table,
                     nextId := w.nextId + 1,
                     createdForKey := w.createdForKey + 1 } .atDone
  | .atDone => w

/-- Run a schedule (a list of which task moves next) from a race state. -/
def regRaceRun (key : String) (sched : List Bool) (w : RegRace) : RegRace :=
  sched.foldl (regRaceStep key) w

/-- C10: constructing the rate-limit or circuit-breaker middleware with
`disabled = true` yields the identity middleware — applying it to a handler
`h` returns `h` itself, so no token-bucket state and no breaker registry
state is touched on any call. -/
theorem c10_disabled_middleware_is_identity :
    (∀ h : SHandler, ratelimitServer [rlWithDisabled true] h = h) ∧
    (∀ h : SHandler, circuitbreakerServer [cbWithDisabled true] h = h) := by
  exact ⟨fun h => rfl, fun h => rfl⟩

/-- C4: a handler that panics yields, from the recovery-wrapped handler, the
normal return `(nil, recoveryHandler(ctx, panicValue))` — by default the
fault wrapped as the generic `panic: %v` error — instead of a propagating
fault; a call on which the handler returns normally passes its reply and
error through unchanged (so a subsequent non-faulting call through the same
stateless wrapper succeeds normally). -/
theorem c4_recovery_translates_faults :
    (∀ (cfg : RecOptions) (h : PHandler) (ctx : Ctx) (req v : Nat),
        cfg.disabled = false → h ctx req = .panics v →
        recoveryServerO cfg h ctx req = .ok none (some (cfg.recoveryHandler ctx v))) ∧
    (∀ (cfg : RecOptions) (h : PHandler) (ctx : Ctx) (req : Nat)
        (r : Option Nat) (e : Option GoError),
        cfg.disabled = false → h ctx req = .ok r e →
        recoveryServerO cfg h ctx req = .ok r e) ∧
    (∀ (ctx : Ctx) (v : Nat), recDefaults.recoveryHandler ctx v = .panicErr v) := by
  refine ⟨?_, ?_, fun ctx v => rfl⟩
  · intro cfg h ctx req v hd hcall
    simp only [recoveryServerO, hd, Bool.false_eq_true, if_false, hcall]
  · intro cfg h ctx req r e hd hcall
    simp only [recoveryServerO, hd, Bool.false_eq_true, if_false, hcall]

/-- Closed witness for `c4_recovery_translates_faults`: with the default
configuration, a handler panicking with value 3 yields `panic: 3`, and a
handler returning `(5, nil)` passes through unchanged. -/
theorem c4_witness :
    recoveryServerO recDefaults (fun _ _ => .panics 3) ⟨0, none, none⟩ 0 =
      .ok none (some (.panicErr 3)) ∧
    recoveryServerO recDefaults (fun _ _ => .ok (some 5) none) ⟨0, none, none⟩ 0 =
      .ok (some 5) none :=
  ⟨c4_recovery_translates_faults.1 recDefaults _ ⟨0, none, none⟩ 0 3 rfl rfl,
   c4_recovery_translates_faults.2.1 recDefaults _ ⟨0, none, none⟩ 0 (some 5) none rfl rfl⟩

/-- C7 is false of the code: `Allow(n)` is `TakeAvailable(n) > 0`, and
`TakeAvailable` removes up to `n` tokens, returning how many it removed —
so with a single available token, `Allow(2)` removes that token and admits
even though 2 exceeds the 1 available token. (This also contradicts Allow's
own doc comment, "returns true if n tokens are available".) -/
theorem c7_allow_admits_beyond_available :
    (rlAllow (newBucketWithRate 10 10) ⟨1, 0⟩ 0 2).2 = true ∧
    (rlAllow (newBucketWithRate 10 10) ⟨1, 0⟩ 0 2).1.availableTokens = 0 ∧
    (1 : Int) < 2 := by
  decide

/-- C2's counterexample: with one (nil-returning) afterStop hook, a second
`Stop` after the root token is already cancelled executes that hook again —
the second invocation performs 1 hook execution, not 0 as a no-op would. -/
theorem c2_counterexample_hooks_rerun :
    (appStop [] [none] ⟨false⟩).1.cancelled = true ∧
    (appStop [] [none] (appStop [] [none] ⟨false⟩).1).2.2 = 1 ∧
    (appStop [] [none] (appStop [] [none] ⟨false⟩).1).2.1 = none := by
  decide

/-- C8 is false of the code: the registry is a plain unsynchronized map, so
two tasks interleaved as read/read/create/create each miss and each create
a breaker for the same key — two `NewCircuitBreaker` calls for one key —
whereas a sequential schedule creates exactly one. -/
theorem c8_unsynchronized_registry_double_creation :
    (regRaceRun "k" [true, false, true, false] regRaceInit).createdForKey = 2 ∧
    (regRaceRun "k" [true, true, false, false] regRaceInit).createdForKey = 1 := by
  decide

/-- C6's counterexample: on an empty bucket (10 tokens/s), a `Wait` entered
at instant 0 with the caller's token cancelled at instant 1 — long before
the token accrues at instant 10^8 — does not abort with a cancellation
error: it reserves the token and completes normally at instant 10^8. -/
theorem c6_counterexample_wait_ignores_cancellation :
    (1 : Nat) < 100000000 ∧
    ratelimitWait (newBucketWithRate 10 10) ⟨0, 0⟩ (some 1) 0 1 =
      (⟨-1, 0⟩, .completed 100000000) := by
  decide

/-- Hook loops run every hook and return nil when no hook fails. -/
theorem runHooks_allNone (hooks : List (Option GoError))
    (h : ∀ x ∈ hooks, x = none) : runHooks hooks = (none, hooks.length) := by
  induction hooks with
  | nil => rfl
  | cons a rest ih =>
      have ha : a = none := h a (List.mem_cons_self a rest)
      subst ha
      have := ih (fun x hx => h x (List.mem_cons_of_mem none hx))
      simp [runHooks, this]

/-- Hook loops stop at the first failing hook: if every hook before index
`i` returns nil and the hook at `i` returns `e`, then exactly `i + 1` hooks
run and `e` is returned. -/
theorem runHooks_firstError (hooks : List (Option GoError)) (i : Nat) (e : GoError)
    (hpre : ∀ j, j < i → hooks.get? j = some none)
    (hi : hooks.get? i = some (some e)) :
    runHooks hooks = (some e, i + 1) := by
  induction hooks generalizing i with
  | nil => simp [List.get?] at hi
  | cons a rest ih =>
      cases i with
      | zero =>
          simp only [List.get?] at hi
          injection hi with hi
          subst hi
          rfl
      | succ i =>
          have ha : a = none := by
            have := hpre 0 (Nat.succ_pos i)
            simp only [List.get?] at this
            injection this
          subst ha
          have hpre' : ∀ j, j < i → rest.get? j = some none := by
            intro j hj
            have := hpre (j + 1) (Nat.succ_lt_succ hj)
            simpa [List.get?] using this
          have hi' : rest.get? i = some (some e) := by
            simpa [List.get?] using hi
          simp [runHooks, ih i hpre' hi']

/-- C2 as amended: a second `App.Stop` after the root token is already
cancelled does not fault, and when the hooks all return nil it returns nil
with the token still cancelled — but it executes every beforeStop and
afterStop hook again (`bs.length + as.length` hook executions), because
`Stop` has no already-stopped guard; only the token cancellation itself is
idempotent. -/
theorem c2_second_stop_returns_nil_but_reruns_hooks
    (bs as : List (Option GoError)) (s : StopState)
    (hc : s.cancelled = true)
    (hbs : ∀ x ∈ bs, x = none) (has : ∀ x ∈ as, x = none) :
    appStop bs as s = (⟨true⟩, none, bs.length + as.length) := by
  simp [appStop, runHooks_allNone bs hbs, runHooks_allNone as has]

/-- Closed witness for `c2_second_stop_returns_nil_but_reruns_hooks`: one
nil beforeStop hook and one nil afterStop hook, starting from the
already-cancelled state: the second `Stop` returns nil and performs two
hook executions. -/
theorem c2_witness :
    appStop [none] [none] ⟨true⟩ = (⟨true⟩, none, 2) :=
  c2_second_stop_returns_nil_but_reruns_hooks [none] [none] ⟨true⟩ rfl
    (fun x hx => by simpa using hx) (fun x hx => by simpa using hx)

/-- C3: if some `beforeStart` hook fails, `Run` executes the hooks strictly
in order up to and including the first failing one (`i + 1` executions when
the first failure is at index `i`), returns that first error, and launches
no server start task and no afterStart hook. -/
theorem c3_beforeStart_error_prevents_starts
    (beforeStart afterStart : List (Option GoError)) (numServers : Nat)
    (egWaitResult : Option GoError) (i : Nat) (e : GoError)
    (hpre : ∀ j, j < i → beforeStart.get? j = some none)
    (hi : beforeStart.get? i = some (some e)) :
    appRun beforeStart afterStart numServers egWaitResult = ⟨some e, i + 1, 0, 0⟩ := by
  simp [appRun, runHooks_firstError beforeStart i e hpre hi]

/-- Closed witness for `c3_beforeStart_error_prevents_starts`: with hooks
`[nil, err, nil]` and three servers, `Run` returns the error, runs exactly
two hooks, and starts nothing. -/
theorem c3_witness :
    appRun [none, some (.genericErr 7), none] [none] 3 (some .canceled) =
      ⟨some (.genericErr 7), 2, 0, 0⟩ :=
  c3_beforeStart_error_prevents_starts [none, some (.genericErr 7), none] [none] 3
    (some .canceled) 1 (.genericErr 7)
    (fun j hj => by
      have hj0 : j = 0 := Nat.lt_one_iff.mp hj
      subst hj0
      rfl)
    rfl

/-- The `Init` loop of `New` is the hook loop over each server's `Init`
outcome at the configured id, name and version, with the execution count
first. -/
theorem initServers_eq_runHooks (id name version : String) (ss : List ServerModel) :
    initServers id name version ss =
      ((runHooks (ss.map fun s => s.initResult id name version)).2,
       (runHooks (ss.map fun s => s.initResult id name version)).1) := by
  induction ss with
  | nil => rfl
  | cons s rest ih =>
      cases hr : s.initResult id name version with
      | none => simp [initServers, runHooks, hr, ih]
      | some e => simp [initServers, runHooks, hr]

/-- C9: `New` invokes each server's `Init` in list order with the configured
id, name and version; the first `Init` error makes `New` return
`(nil, err)` having initialized exactly the servers up to and including the
failing one and constructing no `App`; when every `Init` succeeds, all
servers are initialized and the returned `App`'s root token is derived from
the supplied parent context. -/
theorem c9_new_init_order_and_root_token :
    (∀ (o : AppOptions) (i : Nat) (e : GoError),
        (∀ j, j < i →
          (o.servers.map fun s => s.initResult o.id o.name o.version).get? j = some none) →
        (o.servers.map fun s => s.initResult o.id o.name o.version).get? i =
          some (some e) →
        appNewO o = (i + 1, .error e)) ∧
    (∀ o : AppOptions,
        (∀ s ∈ o.servers, s.initResult o.id o.name o.version = none) →
        appNewO o = (o.servers.length,
          .ok { id := o.id, name := o.name, version := o.version,
                rootParent := o.ctx, stopTimeout := o.stopTimeout })) := by
  constructor
  · intro o i e hpre hi
    simp [appNewO, initServers_eq_runHooks,
      runHooks_firstError _ i e hpre hi]
  · intro o hall
    have hmap : ∀ x ∈ o.servers.map fun s => s.initResult o.id o.name o.version,
        x = none := by
      intro x hx
      rcases List.mem_map.mp hx with ⟨s, hs, hxeq⟩
      rw [← hxeq]
      exact hall s hs
    simp [appNewO, initServers_eq_runHooks, runHooks_allNone _ hmap]

/-- Closed witness for `c9_new_init_order_and_root_token`: one app whose
second server's `Init` fails (two `Init`s run, no `App` built) and one app
with two succeeding servers (both initialized, root token derived from
parent context 42). -/
theorem c9_witness :
    appNewO { appDefaults with
      id := "a", name := "b", version := "c", ctx := 7,
      servers := [⟨fun _ _ _ => none⟩, ⟨fun _ _ _ => some (.genericErr 9)⟩,
                  ⟨fun _ _ _ => none⟩] } = (2, .error (.genericErr 9)) ∧
    appNewO { appDefaults with
      id := "a", name := "b", version := "c", ctx := 42,
      servers := [⟨fun _ _ _ => none⟩, ⟨fun _ _ _ => none⟩] } =
      (2, .ok { id := "a", name := "b", version := "c",
                rootParent := 42, stopTimeout := 10000000000 }) :=
  ⟨c9_new_init_order_and_root_token.1 _ 1 (.genericErr 9)
      (fun j hj => by
        have hj0 : j = 0 := Nat.lt_one_iff.mp hj
        subst hj0
        rfl)
      rfl,
   c9_new_init_order_and_root_token.2 _
      (fun s hs => by
        simp only [List.mem_cons, List.not_mem_nil, or_false] at hs
        rcases hs with h | h <;> subst h <;> rfl)⟩

/-- C6 as amended: a rate-limited blocking wait aborts with a cancellation
error only when the caller's token is already cancelled at the instant the
`Wait` helper is entered; once it proceeds, a later cancellation is ignored
— the outcome is identical to that of an uncancellable token, blocking
until the tokens accrue; and the middleware's own blocking branch calls the
bucket's wait and then the handler without consulting the token at all. -/
theorem c6_wait_checks_cancellation_only_at_entry :
    (∀ (b : Bucket) (s : BucketState) (c : Option Nat) (entry : Nat) (n : Int),
        cancelledBy c entry = true → ratelimitWait b s c entry n = (s, .ctxError)) ∧
    (∀ (b : Bucket) (s : BucketState) (c : Option Nat) (entry : Nat) (n : Int),
        cancelledBy c entry = false →
        ratelimitWait b s c entry n = ratelimitWait b s none entry n) ∧
    (∀ (cfg : RLOptions) (h : SHandler) (w : World) (ctx : Ctx) (req : Nat),
        cfg.disabled = false → cfg.waitIfFull = true →
        ratelimitServerO cfg h w ctx req =
          h { w with bucket := ((newBucketWithRate cfg.rate cfg.capacity).takeWait
                w.bucket ctx.now 1).1 }
            { ctx with now := ctx.now + ((newBucketWithRate cfg.rate cfg.capacity).takeWait
                w.bucket ctx.now 1).2 } req) := by
  refine ⟨?_, ?_, ?_⟩
  · intro b s c entry n hcan
    simp [ratelimitWait, hcan]
  · intro b s c entry n hcan
    have h2 : cancelledBy none entry = false := rfl
    simp [ratelimitWait, hcan, h2]
  · intro cfg h w ctx req hd hw
    simp only [ratelimitServerO, hd, Bool.false_eq_true, if_false, hw, if_true]

/-- Closed witness for `c6_wait_checks_cancellation_only_at_entry`: a token
cancelled exactly at entry aborts; a token cancelled one nanosecond later
gives the same completed outcome as no cancellation at all; and the blocking
middleware on an empty bucket sleeps 10 ms and then invokes the handler. -/
theorem c6_witness :
    ratelimitWait (newBucketWithRate 10 10) ⟨0, 0⟩ (some 0) 0 1 = (⟨0, 0⟩, .ctxError) ∧
    ratelimitWait (newBucketWithRate 10 10) ⟨0, 0⟩ (some 1) 0 1 =
      ratelimitWait (newBucketWithRate 10 10) ⟨0, 0⟩ none 0 1 ∧
    ratelimitServerO { rlDefaults with waitIfFull := true }
        (fun w ctx _ => (w, (some ctx.now, none))) ⟨⟨0, 0⟩, []⟩ ⟨0, some 1, none⟩ 5 =
      ((fun w ctx _ => (w, (some ctx.now, none)) : SHandler)
        ⟨⟨-1, 0⟩, []⟩ ⟨10000000, some 1, none⟩ 5) :=
  ⟨c6_wait_checks_cancellation_only_at_entry.1 _ _ (some 0) 0 1 rfl,
   c6_wait_checks_cancellation_only_at_entry.2.1 _ _ (some 1) 0 1 rfl,
   c6_wait_checks_cancellation_only_at_entry.2.2
     { rlDefaults with waitIfFull := true } _ ⟨⟨0, 0⟩, []⟩ ⟨0, some 1, none⟩ 5 rfl rfl⟩

/-- C5: in non-blocking mode the rate-limit middleware, when no token is
available for the single token each call requests, returns
`ErrLimitExceed` with a nil reply and does not invoke the wrapped handler
(the result is the same rejection for every handler); and on a bucket with
capacity 10 and rate 10 tokens/sec, ten immediate `Allow(1)` calls succeed,
the eleventh fails, and after 1 second `Allow(1)` succeeds again. -/
theorem c5_nonblocking_rejects_and_scenario :
    (∀ (cfg : RLOptions) (h : SHandler) (w : World) (ctx : Ctx) (req : Nat),
        cfg.disabled = false → cfg.waitIfFull = false →
        ((newBucketWithRate cfg.rate cfg.capacity).adjust w.bucket
          ((newBucketWithRate cfg.rate cfg.capacity).currentTick ctx.now)).availableTokens
          ≤ 0 →
        ratelimitServerO cfg h w ctx req =
          ({ w with
              bucket :=
                (newBucketWithRate cfg.rate cfg.capacity).adjust w.bucket
                  ((newBucketWithRate cfg.rate cfg.capacity).currentTick ctx.now) },
           (none, some .limitExceed))) ∧
    (let b := newBucketWithRate 10 10
     let ten := allowRun b (initialBucketState b) (List.replicate 10 0)
     let eleventh := rlAllow b ten.2 0 1
     let afterOneSecond := rlAllow b eleventh.1 1000000000 1
     ten.1 = List.replicate 10 true ∧ eleventh.2 = false ∧ afterOneSecond.2 = true) := by
  constructor
  · intro cfg h w ctx req hd hw hempty
    simp only [ratelimitServerO, hd, Bool.false_eq_true, if_false, hw]
    simp only [Bucket.takeAvailable, if_neg (by omega : ¬(1 : Int) ≤ 0),
      if_pos hempty]
    simp
  · decide

/-- Closed witness for `c5_nonblocking_rejects_and_scenario`: the default
middleware (capacity 100, rate 100/s, non-blocking) over an empty bucket at
instant 0 rejects with `ErrLimitExceed` for an arbitrary handler. -/
theorem c5_witness :
    ratelimitServerO rlDefaults (fun w _ _ => (w, (some 1, none)))
        ⟨⟨0, 0⟩, []⟩ ⟨0, none, none⟩ 0 =
      (⟨⟨0, 0⟩, []⟩, (none, some .limitExceed)) ∧
    (rlAllow (newBucketWithRate 10 10)
        (allowRun (newBucketWithRate 10 10)
          (initialBucketState (newBucketWithRate 10 10)) (List.replicate 10 0)).2
        0 1).2 = false :=
  ⟨c5_nonblocking_rejects_and_scenario.1 rlDefaults _ ⟨⟨0, 0⟩, []⟩ ⟨0, none, none⟩ 0
      rfl rfl (by decide),
   c5_nonblocking_rejects_and_scenario.2.2.1⟩

/-- C1: through a Closed breaker, a failing admitted call whose updated
counts make the configured `readyToTrip` predicate true leaves the breaker
Open with expiry `now + timeout` (while passing the handler's own result
through); while Open and not yet expired, every middleware call returns the
`fallbackHandler`'s result for every wrapped handler — so the handler is
never invoked — and the default fallback yields the nil reply with the
"circuit breaker is open" error. -/
theorem c1_trip_to_open_and_open_fast_fails :
    (∀ (cb : Breaker) (t : Nat) (herr : GoError) (reply : Option Nat),
        cb.state = .stateClosed →
        ¬(cb.expiry ≠ none ∧ beforeTime cb.expiry t = true) →
        cb.isSuccessful (some herr) = false →
        cb.readyToTrip cb.counts.onRequest.onFailure = true →
        ((cb.execute t t () fun u => (u, (reply, some herr))).1.state = .stateOpen ∧
         (cb.execute t t () fun u => (u, (reply, some herr))).1.expiry =
           some (t + cb.timeout) ∧
         (cb.execute t t () fun u => (u, (reply, some herr))).2.2 = (reply, some herr))) ∧
    (∀ (cfg : CBOptions) (cb : Breaker) (w : World) (ctx : Ctx) (req : Nat) (h : SHandler),
        cfg.disabled = false →
        regFind w.registry (cfg.circuitBreakerName ctx) = some cb →
        cb.state = .stateOpen →
        beforeTime cb.expiry ctx.now = false →
        circuitbreakerServerO cfg h w ctx req =
          ({ w with registry := regStore w.registry (cfg.circuitBreakerName ctx) cb },
           cfg.fallbackHandler ctx req)) ∧
    (∀ (ctx : Ctx) (req : Nat),
        cbDefaults.fallbackHandler ctx req = (none, some .circuitOpen)) := by
  refine ⟨?_, ?_, fun ctx req => rfl⟩
  · intro cb t herr reply h1 h2 h3 h4
    obtain ⟨mr, iv, tmo, rt, isS, st, gen, cnts, exp⟩ := cb
    dsimp only at h1 h2 h3 h4
    cases st with
    | stateHalfOpen => cases h1
    | stateOpen => cases h1
    | stateClosed =>
        have hbr : Breaker.beforeRequest ⟨mr, iv, tmo, rt, isS, .stateClosed, gen, cnts, exp⟩ t =
            (⟨mr, iv, tmo, rt, isS, .stateClosed, gen, cnts.onRequest, exp⟩, gen, none) := by
          simp only [Breaker.beforeRequest, Breaker.currentState]
          rw [if_neg h2]
          rfl
        have har : Breaker.afterRequest
            ⟨mr, iv, tmo, rt, isS, .stateClosed, gen, cnts.onRequest, exp⟩ gen
            (isS (some herr)) t =
            ⟨mr, iv, tmo, rt, isS, .stateOpen, gen + 1, Counts.clear, some (t + tmo)⟩ := by
          simp only [Breaker.afterRequest, Breaker.currentState]
          rw [if_neg h2, h3]
          simp [Breaker.onFailure, Breaker.setState, Breaker.toNewGeneration, h4]
        have hex : (Breaker.execute ⟨mr, iv, tmo, rt, isS, .stateClosed, gen, cnts, exp⟩ t t ()
            fun u => (u, (reply, some herr))) =
            (⟨mr, iv, tmo, rt, isS, .stateOpen, gen + 1, Counts.clear, some (t + tmo)⟩, (),
              (reply, some herr)) := by
          simp only [Breaker.execute, hbr]
          rw [har]
        rw [hex]
        exact ⟨rfl, rfl, rfl⟩
  · intro cfg cb w ctx req h hd hfind hopen hexp
    obtain ⟨mr, iv, tmo, rt, isS, st, gen, cnts, exp⟩ := cb
    dsimp only at hopen hexp
    cases st with
    | stateClosed => cases hopen
    | stateHalfOpen => cases hopen
    | stateOpen =>
        simp only [circuitbreakerServerO, hd, Bool.false_eq_true, if_false,
          getOrCreateBreaker, hfind, Breaker.execute, Breaker.beforeRequest,
          Breaker.currentState, hexp, if_false]
        simp

/-- Closed witness for `c1_trip_to_open_and_open_fast_fails`: a Closed
default-settings breaker at 9 requests / 8 failures trips to Open (expiry
60 s later) on a tenth, failing call; and an Open breaker with 995 ns left
on its timeout makes the middleware return the default fallback
`(nil, ErrCircuitOpen)` for a handler that would have replied 9. -/
theorem c1_witness :
    (let cbA : Breaker := ⟨100, 60000000000, 60000000000, defaultReadyToTrip,
        fun e => e = none, .stateClosed, 1, ⟨9, 0, 8, 0, 8⟩, some 60000000000⟩
     (cbA.execute 0 0 () fun u => (u, (some 7, some (.genericErr 0)))).1.state =
        .stateOpen ∧
     (cbA.execute 0 0 () fun u => (u, (some 7, some (.genericErr 0)))).1.expiry =
        some (0 + cbA.timeout) ∧
     (cbA.execute 0 0 () fun u => (u, (some 7, some (.genericErr 0)))).2.2 =
        (some 7, some (.genericErr 0))) ∧
    (let cbB : Breaker := ⟨100, 60000000000, 60000000000, defaultReadyToTrip,
        fun e => e = none, .stateOpen, 2, Counts.clear, some 1000⟩
     circuitbreakerServerO cbDefaults (fun w _ _ => (w, (some 9, none)))
        ⟨⟨0, 0⟩, [("server", cbB)]⟩ ⟨5, none, none⟩ 0 =
       (⟨⟨0, 0⟩, regStore [("server", cbB)] "server" cbB⟩,
        cbDefaults.fallbackHandler ⟨5, none, none⟩ 0)) :=
  ⟨c1_trip_to_open_and_open_fast_fails.1 _ 0 (.genericErr 0) (some 7) rfl
      (by decide) (by decide) (by decide),
   c1_trip_to_open_and_open_fast_fails.2.1 cbDefaults _ _ ⟨5, none, none⟩ 0
      (fun w _ _ => (w, (some 9, none))) rfl rfl rfl (by decide)⟩
